import Mathlib

/-!
Verification of the MQTT protocol engine of the vendoring_machine repository
(`mqtt.c`).  The C code is shallowly embedded: frames are lists of byte
values (`Nat`, kept below 256 by the operations themselves), machine
arithmetic is `Nat`/`Int` with explicit `% 2^w` where the C performs a
narrowing cast or could wrap, and the side effects of the inbound handlers
(driver callbacks and acknowledgment frames pushed onto the send queue) are
reified as an explicit event list in program order.
-/

/- message type definition (mqtt.c) -/
def TYPE_CONNECT : Nat := 0x10
def TYPE_CONNACK : Nat := 0x20
def TYPE_PUBLISH : Nat := 0x30
def TYPE_PUBACK : Nat := 0x40
def TYPE_PUBREC : Nat := 0x50
def TYPE_PUBREL : Nat := 0x62
def TYPE_PUBCOMP : Nat := 0x70
def TYPE_SUBSCRIBE : Nat := 0x82
def TYPE_SUBACK : Nat := 0x90
def TYPE_UNSUBSCRIBE : Nat := 0xa2
def TYPE_UNSUBACK : Nat := 0xb0
def TYPE_PINGREQ : Nat := 0xc0
def TYPE_PINGRESP : Nat := 0xd0
def TYPE_DISCONNECT : Nat := 0xe0

/-- `mqtt_msg`: a frame buffer paired with its recorded size.  In the C the
buffer has a fixed capacity of 128 bytes; here `data` lists exactly the bytes
the builder wrote, in order, and `size` is the value stored in `msg.size`. -/
structure mqtt_msg where
  size : Nat
  data : List Nat
  deriving DecidableEq, Repr

/-- Loop of `encode_length` (mqtt.c lines 171-191).  Faithful translation of
the do-while loop, including its defect: when `data / 128 > 0` the C computes
`encode_byte |= 0x80` but falls through WITHOUT storing the byte or bumping
`size`; only the final digit (the branch where the quotient is 0) is ever
written to the output buffer. -/
def encode_go (data : Nat) (encode : List Nat) (size : Nat) : List Nat × Nat :=
  let encode_byte := data % 128
  if data / 128 > 0 then
    -- encode_byte |= 0x80 is computed here but the byte is never stored
    encode_go (data / 128) encode size
  else
    (encode ++ [encode_byte], size + 1)
termination_by data
decreasing_by exact Nat.div_lt_self (by omega) (by omega)

/-- `encode_length` (mqtt.c lines 171-191): returns the bytes written into
`encode` and the returned `size`. -/
def encode_length (data : Nat) : List Nat × Nat :=
  encode_go data [] 0

/-- Loop of `decode_length` (mqtt.c lines 199-225).  The C pointer is
pre-incremented, so decoding starts at index 1 of `decode` (callers pass the
frame start, whose byte 0 is the fixed header).  `multipiler` is represented
as `128 ^ iter`; the C variable is a `uint32_t` holding exactly that value
(at most `128^4 < 2^32`, so no wrap occurs).  `*decode & 0x7f` is
`b % 128` and `*decode & 0x80 != 0` is `b / 128 % 2 ≠ 0` for byte values. -/
def decode_go (decode : List Nat) (idx value step iter : Nat) : Nat × Nat :=
  let idx := idx + 1
  let step := step + 1
  let b := decode.getD idx 0
  let value := value + b % 128 * 128 ^ iter
  if 128 ^ (iter + 1) > 128 * 128 * 128 then
    /- error happened: return 0xffffffff -/
    (4294967295, step)
  else if b / 128 % 2 ≠ 0 then
    decode_go decode idx value step (iter + 1)
  else
    (value, step)
termination_by 4 - iter
decreasing_by
  rename_i h _
  have h3 : 128 ^ (iter + 1) ≤ 128 ^ 3 := by omega
  have : iter + 1 ≤ 3 := (Nat.pow_le_pow_iff_right (by omega)).mp h3
  omega

/-- `decode_length` (mqtt.c lines 199-225): returns `(value, *step)` where
`step` counts the length bytes consumed (starting at frame index 1). -/
def decode_length (decode : List Nat) : Nat × Nat :=
  decode_go decode 0 0 0 0

/-- Observable effects of the inbound handlers, in program order: a driver
callback invocation, or a frame handed to `mqtt_send_data` (i.e. pushed onto
the outbound queue). -/
inductive event where
  | cb_connack (status : Nat)
  | cb_publish (topic : List Nat) (content : List Nat)
  | cb_puback (id : Nat)
  | cb_pubrec (id : Nat)
  | cb_pubrel (id : Nat)
  | cb_pubcomp (id : Nat)
  | cb_suback (status : Nat) (id : Nat)
  | cb_unsuback (id : Nat)
  | cb_pingresp
  | send (msg : mqtt_msg)
  deriving DecidableEq, Repr

/-- `mqtt_puback` (mqtt.c lines 959-975): the frame it builds and enqueues.
`(uint8_t)(id >> 8)` is `id / 256 % 256` and `(uint8_t)(id & 0xff)` is
`id % 256`. -/
def mqtt_puback_msg (id : Nat) : mqtt_msg :=
  { size := 4, data := [TYPE_PUBACK, 0x02, id / 256 % 256, id % 256] }

/-- `mqtt_pubrec` (mqtt.c lines 980-997): the frame it builds and enqueues. -/
def mqtt_pubrec_msg (id : Nat) : mqtt_msg :=
  { size := 4, data := [TYPE_PUBREC, 0x02, id / 256 % 256, id % 256] }

/-- `mqtt_pubcomp` (mqtt.c lines 1002-1019): the frame it builds and
enqueues. -/
def mqtt_pubcomp_msg (id : Nat) : mqtt_msg :=
  { size := 4, data := [TYPE_PUBCOMP, 0x02, id / 256 % 256, id % 256] }

/-- strncpy into a local buffer followed by writing a NUL terminator at
index `n`, read back as a C string: the copied bytes up to the first NUL,
at most `n` of them. -/
def strncpy_str (src : List Nat) (n : Nat) : List Nat :=
  (src.take n).takeWhile (fun b => b ≠ 0)

/-- `process_connack` (mqtt.c lines 232-239).  The `assert_param` on
`decode_length` is a debug check with no effect on the data flow and is not
modelled. -/
def process_connack (data : List Nat) (len : Nat) : List event :=
  if len ≥ 4 then [event.cb_connack (data.getD 3 0)] else []

/-- `process_publish` (mqtt.c lines 246-301).  `data_len` and `dup` are
computed by the C but never used.  `topic_len` and `id` are `uint16_t`
accumulated as `b1 << 8 + b2`; `qos` is `(data[0] >> 1) & 0x03`, i.e.
`data[0] / 2 % 4`.  `len` is a `uint8_t`, decremented by 2 in the qos 1/2
branch (no wrap: this branch runs only when `len ≥ 4`).  The content length
passed to the `publish` callback is computed in `int` and converted to
`uint32_t`, hence the explicit `% 2^32` on an `Int`. -/
def process_publish (data : List Nat) (len : Nat) : List event :=
  if len ≥ 4 then
    let step := (decode_length data).2
    let qos := data.getD 0 0 / 2 % 4
    let topic_len := ((data.getD (step + 1) 0) * 256 + data.getD (step + 2) 0) % 65536
    let topic :=
      if topic_len ≥ 42 then strncpy_str (data.drop (step + 3)) 41
      else strncpy_str (data.drop (step + 3)) topic_len
    let id :=
      if qos = 1 ∨ qos = 2 then
        ((data.getD (step + 3 + topic_len) 0) * 256
          + data.getD (step + 3 + topic_len + 1) 0) % 65536
      else 0
    let len := if qos = 1 ∨ qos = 2 then (len - 2) % 256 else len
    let pos := step + 3 + topic_len + (if qos = 1 ∨ qos = 2 then 2 else 0)
    let content_len := (((len : Int) - step - topic_len - 3) % 4294967296).toNat
    event.cb_publish topic ((data.drop pos).take content_len) ::
      (if qos = 1 then [event.send (mqtt_puback_msg id)]
       else if qos = 2 then [event.send (mqtt_pubrec_msg id)]
       else [])
  else []

/-- `process_puback` (mqtt.c lines 308-318): `uuid = data[2] << 8 + data[3]`
as `uint16_t`. -/
def process_puback (data : List Nat) (len : Nat) : List event :=
  if len ≥ 4 then
    [event.cb_puback (((data.getD 2 0) * 256 + data.getD 3 0) % 65536)]
  else []

/-- `process_pubrec` (mqtt.c lines 325-335). -/
def process_pubrec (data : List Nat) (len : Nat) : List event :=
  if len ≥ 4 then
    [event.cb_pubrec (((data.getD 2 0) * 256 + data.getD 3 0) % 65536)]
  else []

/-- `process_pubrel` (mqtt.c lines 342-353): enqueues PUBCOMP via
`mqtt_pubcomp`, then invokes the `pubrel` callback, in that order. -/
def process_pubrel (data : List Nat) (len : Nat) : List event :=
  if len ≥ 4 then
    let uuid := ((data.getD 2 0) * 256 + data.getD 3 0) % 65536
    [event.send (mqtt_pubcomp_msg uuid), event.cb_pubrel uuid]
  else []

/-- `process_pubcomp` (mqtt.c lines 360-370). -/
def process_pubcomp (data : List Nat) (len : Nat) : List event :=
  if len ≥ 4 then
    [event.cb_pubcomp (((data.getD 2 0) * 256 + data.getD 3 0) % 65536)]
  else []

/-- `process_suback` (mqtt.c lines 377-388). -/
def process_suback (data : List Nat) (len : Nat) : List event :=
  if len ≥ 4 then
    [event.cb_suback (data.getD 4 0) (((data.getD 2 0) * 256 + data.getD 3 0) % 65536)]
  else []

/-- `process_unsuback` (mqtt.c lines 395-405). -/
def process_unsuback (data : List Nat) (len : Nat) : List event :=
  if len ≥ 4 then
    [event.cb_unsuback (((data.getD 2 0) * 256 + data.getD 3 0) % 65536)]
  else []

/-- `process_pingresp` (mqtt.c lines 412-415): no length check at all — the
callback fires for every dispatched frame, however short. -/
def process_pingresp (data : List Nat) (len : Nat) : List event :=
  [event.cb_pingresp]

/-- Named handlers of the dispatch table, in table order (`funcs`,
mqtt.c lines 424-435). -/
inductive handler where
  | connack | publish | puback | pubrec | pubrel | pubcomp
  | suback | unsuback | pingresp
  deriving DecidableEq, Repr

/-- `funcs` (mqtt.c lines 424-435): the ordered dispatch table. -/
def funcs : List (Nat × handler) :=
  [(TYPE_CONNACK, handler.connack),
   (TYPE_PUBLISH, handler.publish),
   (TYPE_PUBACK, handler.puback),
   (TYPE_PUBREC, handler.pubrec),
   (TYPE_PUBREL, handler.pubrel),
   (TYPE_PUBCOMP, handler.pubcomp),
   (TYPE_SUBACK, handler.suback),
   (TYPE_UNSUBACK, handler.unsuback),
   (TYPE_PINGRESP, handler.pingresp)]

/-- The matching loop of `vMqttRecv` on the WiFi (esp8266) branch
(mqtt.c lines 494-506): for each table entry, first compare against
`data[0] & 0xf0`, then against `data[0]` exactly; run the handler and break
on the first hit.  `b & 0xf0` is `b / 16 % 16 * 16` for byte values. -/
def dispatch_wifi_go : List (Nat × handler) → Nat → Option handler
  | [], _ => none
  | (t, h) :: rest, b =>
    if t = b / 16 % 16 * 16 then some h
    else if t = b then some h
    else dispatch_wifi_go rest b

/-- The matching loop of `vMqttRecv` on the cellular (m26) branch
(mqtt.c lines 513-520): exact comparison against `data[0]` only. -/
def dispatch_m26_go : List (Nat × handler) → Nat → Option handler
  | [], _ => none
  | (t, h) :: rest, b =>
    if t = b then some h
    else dispatch_m26_go rest b

/-- Dispatch of an inbound first byte on the WiFi transport. -/
def dispatch_wifi (b : Nat) : Option handler :=
  dispatch_wifi_go funcs b

/-- Dispatch of an inbound first byte on the cellular transport. -/
def dispatch_m26 (b : Nat) : Option handler :=
  dispatch_m26_go funcs b

/-- The dispatch rule as the specification words it (for comparison with the
code's `dispatch_wifi`/`dispatch_m26`): PUBLISH is matched by masking the
first byte with 0xF0, every other type by exact equality, first match
wins, on either transport. -/
def dispatch_spec_rule (b : Nat) : Option handler :=
  funcs.findSome? (fun p =>
    if (if p.1 = TYPE_PUBLISH then p.1 = b / 16 % 16 * 16 else p.1 = b)
    then some p.2 else none)

/-- Big-endian 16-bit write: `(uint8_t)(n >> 8)` then `(uint8_t)(n & 0xff)`. -/
def u16be (n : Nat) : List Nat := [n / 256 % 256, n % 256]

/-- `protocol_name` (mqtt.c line 64). -/
def protocol_name : List Nat := [0x00, 0x04, 77, 81, 84, 84]

/-- `PROTOCOL_LEVEL` (mqtt.c line 65). -/
def PROTOCOL_LEVEL : Nat := 0x04

/-- `static uint16_t g_uuid = 0` (mqtt.c line 60): initial identifier
counter value. -/
def g_uuid_init : Nat := 0

/-- `connect_param` (declared in mqtt.h, used by mqtt.c).  Strings are byte
lists (no NUL); a NULL `client_id` is `none`.  The `_flag` bitfields the
code reads are carried as separate numeric fields, and `flag` is the packed
connect-flags byte written to the wire (`param->flag.flag`); the C union
keeps them consistent, which no claim here depends on. -/
structure connect_param where
  client_id : Option (List Nat)
  clear_session : Nat
  will_flag : Nat
  will_qos : Nat
  will_retain : Nat
  username_flag : Nat
  password_flag : Nat
  flag : Nat
  alive_time : Nat
  will_topic : List Nat
  will_msg : List Nat
  username : List Nat
  password : List Nat

/-- `calculate_connect_payload_len` (mqtt.c lines 673-701).  Note: in the
`client_id == NULL` case nothing is added, although `mqtt_connect` still
writes a 2-byte zero length prefix. -/
def calculate_connect_payload_len (param : connect_param) : Nat :=
  let payload_len := 10
  let payload_len := payload_len +
    (match param.client_id with
     | some s => s.length + 2
     | none => 0)
  let payload_len := payload_len +
    (if param.will_flag = 1 then
       (param.will_topic.length + 2) + (param.will_msg.length + 2)
     else 0)
  let payload_len := payload_len +
    (if param.username_flag = 1 then param.username.length + 2 else 0)
  let payload_len := payload_len +
    (if param.password_flag = 1 then param.password.length + 2 else 0)
  payload_len

/-- `mqtt_connect` (mqtt.c lines 726-811): the CONNECT frame builder.
`data` lists every byte the builder writes through `pdata` in order;
`size` is the recorded `msg.size = payload_len + encode_len + 1`.
`str_len` is a `uint16_t`, hence the `% 65536` on the string lengths. -/
def mqtt_connect (param : connect_param) : mqtt_msg :=
  let payload_len := calculate_connect_payload_len param
  let enc := encode_length payload_len
  { size := payload_len + enc.2 + 1,
    data :=
      [TYPE_CONNECT] ++ enc.1 ++ protocol_name
        ++ [PROTOCOL_LEVEL, param.flag % 256]
        ++ u16be param.alive_time
        ++ (match param.client_id with
            | some s => u16be (s.length % 65536) ++ s
            | none => [0x00, 0x00])
        ++ (if param.will_flag = 1 then
              u16be (param.will_topic.length % 65536) ++ param.will_topic
                ++ u16be (param.will_msg.length % 65536) ++ param.will_msg
            else [])
        ++ (if param.username_flag = 1 then
              u16be (param.username.length % 65536) ++ param.username
            else [])
        ++ (if param.password_flag = 1 then
              u16be (param.password.length % 65536) ++ param.password
            else []) }

/-- `mqtt_publish` (mqtt.c lines 819-866): returns the built frame and the
new value of the `g_uuid` counter (incremented, with `uint16_t` wrap, only
when `qos != 0`).  The fixed-header byte ORs disjoint bit ranges, written
here additively: `TYPE_PUBLISH | (dup & 1) << 3 | (qos & 3) << 1 |
(retain & 1)`. -/
def mqtt_publish (topic content : List Nat) (dup qos retain : Nat)
    (g_uuid : Nat) : mqtt_msg × Nat :=
  let payload_len := topic.length + 2 + content.length
    + (if qos ≠ 0 then 2 else 0)
  let enc := encode_length payload_len
  ({ size := payload_len + enc.2 + 1,
     data :=
       [TYPE_PUBLISH + dup % 2 * 8 + qos % 4 * 2 + retain % 2] ++ enc.1
         ++ u16be (topic.length % 65536) ++ topic
         ++ (if qos ≠ 0 then u16be g_uuid else [])
         ++ content },
   if qos ≠ 0 then (g_uuid + 1) % 65536 else g_uuid)

/-- `mqtt_subscribe` (mqtt.c lines 873-912): returns the built frame, the
function's return value, and the new counter value.  The function is
declared `uint8_t`, so `return g_uuid` (after the post-use increment of the
`uint16_t` counter) narrows the counter to its low byte: `% 65536` is the
counter's own width, the trailing `% 256` the narrowing return cast. -/
def mqtt_subscribe (topic : List Nat) (qos : Nat) (g_uuid : Nat) :
    mqtt_msg × Nat × Nat :=
  let payload_len := topic.length + 5
  let enc := encode_length payload_len
  ({ size := payload_len + enc.2 + 1,
     data :=
       [TYPE_SUBSCRIBE] ++ enc.1
         ++ u16be g_uuid
         ++ u16be (topic.length % 65536) ++ topic
         ++ [qos % 4] },
   (g_uuid + 1) % 65536 % 256, (g_uuid + 1) % 65536)

/-- `mqtt_unsubscribe` (mqtt.c lines 919-954): returns the built frame and
the new counter value.  The fixed-header byte written is `TYPE_SUBSCRIBE`
(mqtt.c line 932), not `TYPE_UNSUBSCRIBE`. -/
def mqtt_unsubscribe (topic : List Nat) (g_uuid : Nat) : mqtt_msg × Nat :=
  let payload_len := topic.length + 4
  let enc := encode_length payload_len
  ({ size := payload_len + enc.2 + 1,
     data :=
       [TYPE_SUBSCRIBE] ++ enc.1
         ++ u16be g_uuid
         ++ u16be (topic.length % 65536) ++ topic },
   (g_uuid + 1) % 65536)

/-- One identifier-consuming builder invocation. -/
inductive mqtt_op where
  | publish (topic content : List Nat) (dup qos retain : Nat)
  | subscribe (topic : List Nat) (qos : Nat)
  | unsubscribe (topic : List Nat)

/-- Run one builder against the current `g_uuid` counter, returning the
frame and the new counter. -/
def run_op : mqtt_op → Nat → mqtt_msg × Nat
  | mqtt_op.publish t c d q r, u => mqtt_publish t c d q r u
  | mqtt_op.subscribe t q, u =>
    ((mqtt_subscribe t q u).1, (mqtt_subscribe t q u).2.2)
  | mqtt_op.unsubscribe t, u => mqtt_unsubscribe t u

/-- An operation that consumes a packet identifier: any subscribe or
unsubscribe, or a publish with `qos ≠ 0`. -/
def qos_bearing : mqtt_op → Prop
  | mqtt_op.publish _ _ _ q _ => q ≠ 0
  | mqtt_op.subscribe _ _ => True
  | mqtt_op.unsubscribe _ => True

/-- Byte offset of the 2-byte packet identifier inside the frame built for
`op`: after the fixed-header byte, the remaining-length field (1 byte — see
`encode_len_one`), and, for PUBLISH, the length-prefixed topic. -/
def id_offset : mqtt_op → Nat
  | mqtt_op.publish t _ _ _ _ => 2 + 2 + t.length
  | mqtt_op.subscribe _ _ => 2
  | mqtt_op.unsubscribe _ => 2

/-- The packet identifier encoded (big-endian) in the frame built for
`op`. -/
def frame_id (op : mqtt_op) (m : mqtt_msg) : Nat :=
  (m.data.getD (id_offset op) 0) * 256 + m.data.getD (id_offset op + 1) 0

/-- Run a sequence of builder invocations from a starting counter value,
collecting the identifier encoded in each emitted frame. -/
def run_ops : List mqtt_op → Nat → List Nat × Nat
  | [], u => ([], u)
  | op :: rest, u =>
    let r := run_op op u
    let rec_result := run_ops rest r.2
    (frame_id op r.1 :: rec_result.1, rec_result.2)

/-- A valid connect parameter set with no client id (clean session set, as
`check_connect_param` requires when `client_id` is NULL), no will, no
username, no password: `flag = 0x02` is the clean-session connect-flags
byte. -/
def connect_no_client_id : connect_param :=
  { client_id := none, clear_session := 1, will_flag := 0, will_qos := 0,
    will_retain := 0, username_flag := 0, password_flag := 0, flag := 0x02,
    alive_time := 60, will_topic := [], will_msg := [], username := [],
    password := [] }

/-- The same parameters with a 1-byte client id. -/
def connect_with_client_id : connect_param :=
  { connect_no_client_id with client_id := some [99] }

/-! ### Helper lemmas about the codec -/

/-- The encoder loop always appends exactly one byte (< 128) to the buffer
and returns `size + 1`: the continuation bytes of a multi-byte encoding are
computed but never stored. -/
theorem encode_go_eq : ∀ d acc s, ∃ b, b < 128 ∧
    encode_go d acc s = (acc ++ [b], s + 1) := by
  intro d
  induction d using Nat.strong_induction_on with
  | _ d ih =>
    intro acc s
    rw [encode_go]
    split
    · exact ih (d / 128) (Nat.div_lt_self (by omega) (by omega)) acc s
    · exact ⟨d % 128, Nat.mod_lt _ (by omega), rfl⟩

/-- `encode_length` always reports exactly one valid byte. -/
theorem encode_len_one (d : Nat) : (encode_length d).2 = 1 := by
  obtain ⟨b, -, h⟩ := encode_go_eq d [] 0
  simp [encode_length, h]

/-- `encode_length` always writes exactly one byte into the buffer. -/
theorem encode_length_eq (d : Nat) : ∃ b, b < 128 ∧
    encode_length d = ([b], 1) := by
  obtain ⟨b, hb, h⟩ := encode_go_eq d [] 0
  exact ⟨b, hb, by simp [encode_length, h]⟩

/-- For values below 128 the single stored byte is the value itself. -/
theorem encode_length_small (d : Nat) (h : d < 128) :
    encode_length d = ([d], 1) := by
  rw [encode_length, encode_go]
  simp [Nat.div_eq_of_lt h, Nat.mod_eq_of_lt h]

/-- Decoding a frame whose single remaining-length byte (frame index 1) has
the continuation bit clear consumes one byte and yields that byte. -/
theorem decode_step_one (b0 rl : Nat) (rest : List Nat) (h : rl < 128) :
    decode_length (b0 :: rl :: rest) = (rl, 1) := by
  rw [decode_length, decode_go]
  simp [Nat.div_eq_of_lt h, Nat.mod_eq_of_lt h]

/-- Reading an appended list at the boundary index. -/
theorem getD_append_at (l₁ l₂ : List Nat) (n : Nat) (h : n = l₁.length) :
    (l₁ ++ l₂).getD n 0 = l₂.getD 0 0 := by
  subst h
  rw [List.getD_append_right _ _ _ _ le_rfl]
  simp

/-- Reading an appended list one past the boundary index. -/
theorem getD_append_at_succ (l₁ l₂ : List Nat) (n : Nat) (h : n = l₁.length + 1) :
    (l₁ ++ l₂).getD n 0 = l₂.getD 1 0 := by
  subst h
  rw [List.getD_append_right _ _ _ _ (Nat.le_succ_of_le le_rfl)]
  simp

/-- The WiFi matching loop finds the first entry whose type equals the
masked byte or the exact byte. -/
theorem dispatch_wifi_go_eq (l : List (Nat × handler)) (b : Nat) :
    dispatch_wifi_go l b
      = l.findSome? (fun p => if p.1 = b / 16 % 16 * 16 ∨ p.1 = b then some p.2 else none) := by
  induction l with
  | nil => rfl
  | cons p rest ih =>
    obtain ⟨t, h⟩ := p
    simp only [dispatch_wifi_go, List.findSome?_cons]
    by_cases h1 : t = b / 16 % 16 * 16
    · simp [h1]
    · by_cases h2 : t = b
      · simp [h1, h2]
      · simp [h1, h2, ih]

/-- The cellular matching loop finds the first entry whose type equals the
byte exactly. -/
theorem dispatch_m26_go_eq (l : List (Nat × handler)) (b : Nat) :
    dispatch_m26_go l b
      = l.findSome? (fun p => if p.1 = b then some p.2 else none) := by
  induction l with
  | nil => rfl
  | cons p rest ih =>
    obtain ⟨t, h⟩ := p
    simp only [dispatch_m26_go, List.findSome?_cons]
    by_cases h2 : t = b
    · simp [h2]
    · simp [h2, ih]

/-- Each identifier-consuming builder writes the current counter value
(big-endian) at the identifier position of its frame and returns the
counter incremented modulo 2^16. -/
theorem run_op_id (op : mqtt_op) (u : Nat) (hq : qos_bearing op) (hu : u < 65536) :
    frame_id op (run_op op u).1 = u ∧ (run_op op u).2 = (u + 1) % 65536 := by
  cases op with
  | publish t c d q r =>
    have hq' : q ≠ 0 := hq
    obtain ⟨b, hb, he⟩ := encode_length_eq (t.length + 2 + c.length + 2)
    refine ⟨?_, by simp [run_op, mqtt_publish, hq']⟩
    have hdata : (run_op (mqtt_op.publish t c d q r) u).1.data
        = ((TYPE_PUBLISH + d % 2 * 8 + q % 4 * 2 + r % 2) :: b ::
            (u16be (t.length % 65536) ++ t)) ++ (u / 256 % 256 :: u % 256 :: c) := by
      simp [run_op, mqtt_publish, hq', he, u16be]
    simp only [frame_id, id_offset, hdata]
    rw [getD_append_at _ _ _ (by simp [u16be]; omega),
        getD_append_at_succ _ _ _ (by simp [u16be]; omega)]
    simp only [List.getD_cons_zero, List.getD_cons_succ]
    omega
  | subscribe t q =>
    obtain ⟨b, hb, he⟩ := encode_length_eq (t.length + 5)
    refine ⟨?_, by simp [run_op, mqtt_subscribe]⟩
    have hdata : (run_op (mqtt_op.subscribe t q) u).1.data
        = TYPE_SUBSCRIBE :: b :: u / 256 % 256 :: u % 256 ::
            (u16be (t.length % 65536) ++ t ++ [q % 4]) := by
      simp [run_op, mqtt_subscribe, he, u16be]
    simp only [frame_id, id_offset, hdata]
    simp only [List.getD_cons_zero, List.getD_cons_succ]
    omega
  | unsubscribe t =>
    obtain ⟨b, hb, he⟩ := encode_length_eq (t.length + 4)
    refine ⟨?_, by simp [run_op, mqtt_unsubscribe]⟩
    have hdata : (run_op (mqtt_op.unsubscribe t) u).1.data
        = TYPE_SUBSCRIBE :: b :: u / 256 % 256 :: u % 256 ::
            (u16be (t.length % 65536) ++ t) := by
      simp [run_op, mqtt_unsubscribe, he, u16be]
    simp only [frame_id, id_offset, hdata]
    simp only [List.getD_cons_zero, List.getD_cons_succ]
    omega

/-- Running a sequence of identifier-consuming builders from counter `u0`
encodes `(u0 + k) % 65536` into the `k`-th frame. -/
theorem run_ops_ids (ops : List mqtt_op) (u0 : Nat)
    (hq : ∀ op ∈ ops, qos_bearing op) (hu : u0 < 65536) :
    ∀ k, k < ops.length → (run_ops ops u0).1.getD k 0 = (u0 + k) % 65536 := by
  induction ops generalizing u0 with
  | nil => intro k hk; simp at hk
  | cons op rest ih =>
    intro k hk
    obtain ⟨h1, h2⟩ := run_op_id op u0 (hq op (by simp)) hu
    cases k with
    | zero =>
      simp [run_ops, h1]
      omega
    | succ k =>
      have hr := ih ((u0 + 1) % 65536)
        (fun op h => hq op (by simp [h])) (Nat.mod_lt _ (by omega)) k
        (by simpa using hk)
      simp only [run_ops, h2, List.getD_cons_succ]
      rw [hr]
      omega

/-- Dropping past an append boundary. -/
theorem drop_boundary (l₁ l₂ : List Nat) (n k : Nat) (h : n = l₁.length + k) :
    (l₁ ++ l₂).drop n = l₂.drop k := by
  subst h
  rw [List.drop_append]

theorem process_publish_wellformed (dup qosv retain : Nat) (topic payload : List Nat)
    (id : Nat) (hq : qosv = 1 ∨ qosv = 2) (hd : dup ≤ 1) (hr : retain ≤ 1)
    (ht : topic.length ≤ 41) (h0 : 0 ∉ topic) (hid : id < 65536)
    (hlen : topic.length + payload.length + 4 < 128) :
    process_publish
      (([0x30 + dup * 8 + qosv * 2 + retain, topic.length + payload.length + 4,
         0, topic.length] ++ topic) ++ (id / 256 :: id % 256 :: payload))
      (topic.length + payload.length + 6)
    = event.cb_publish topic payload ::
        (if qosv = 1 then [event.send (mqtt_puback_msg id)]
         else [event.send (mqtt_pubrec_msg id)]) := by
  have hq4 : qosv < 4 := by rcases hq with h | h <;> omega
  have h4 : topic.length + payload.length + 6 ≥ 4 := by omega
  have hstep : decode_length
      (([0x30 + dup * 8 + qosv * 2 + retain, topic.length + payload.length + 4,
         0, topic.length] ++ topic) ++ (id / 256 :: id % 256 :: payload))
      = (topic.length + payload.length + 4, 1) := by
    have h := decode_step_one (0x30 + dup * 8 + qosv * 2 + retain)
      (topic.length + payload.length + 4)
      (0 :: topic.length :: (topic ++ id / 256 :: id % 256 :: payload)) (by omega)
    simpa using h
  have hqos : ([48 + dup * 8 + qosv * 2 + retain, topic.length + payload.length + 4, 0, topic.length] ++ topic ++ id / 256 :: id % 256 :: payload).getD 0 0 / 2 % 4 = qosv := by
    simp
    omega
  have hg2 : ([48 + dup * 8 + qosv * 2 + retain, topic.length + payload.length + 4, 0, topic.length] ++ topic ++ id / 256 :: id % 256 :: payload).getD (1 + 1) 0 = 0 := by simp
  have hg3 : ([48 + dup * 8 + qosv * 2 + retain, topic.length + payload.length + 4, 0, topic.length] ++ topic ++ id / 256 :: id % 256 :: payload).getD (1 + 2) 0 = topic.length := by simp
  have htl : (0 * 256 + topic.length) % 65536 = topic.length := by omega
  have hdrop4 : ([48 + dup * 8 + qosv * 2 + retain, topic.length + payload.length + 4, 0, topic.length] ++ topic ++ id / 256 :: id % 256 :: payload).drop (1 + 3) = topic ++ id / 256 :: id % 256 :: payload := by
    simp
  have hgidA : ([48 + dup * 8 + qosv * 2 + retain, topic.length + payload.length + 4, 0, topic.length] ++ topic ++ id / 256 :: id % 256 :: payload).getD (1 + 3 + topic.length) 0 = id / 256 := by
    rw [getD_append_at _ _ _ (by simp; omega)]
    simp
  have hgidB : ([48 + dup * 8 + qosv * 2 + retain, topic.length + payload.length + 4, 0, topic.length] ++ topic ++ id / 256 :: id % 256 :: payload).getD (1 + 3 + topic.length + 1) 0 = id % 256 := by
    rw [getD_append_at_succ _ _ _ (by simp; omega)]
    simp
  have hdroppos : ([48 + dup * 8 + qosv * 2 + retain, topic.length + payload.length + 4, 0, topic.length] ++ topic ++ id / 256 :: id % 256 :: payload).drop (1 + 3 + topic.length + 2) = payload := by
    rw [drop_boundary _ _ _ 2 (by simp; omega)]
    simp
  have hid' : (id / 256 * 256 + id % 256) % 65536 = id := by omega
  simp only [process_publish, if_pos h4, hstep, hqos, hg2, hg3, htl, hdrop4,
    hgidA, hgidB, hdroppos, hid', if_pos hq]
  rw [if_neg (by omega : ¬ topic.length ≥ 42)]
  rw [strncpy_str, List.take_left]
  rw [List.takeWhile_eq_self_iff.mpr (by intro a ha; simp; intro h; exact h0 (h ▸ ha))]
  have hcl : ((((topic.length + payload.length + 6 - 2) % 256 : Nat) : Int) - (1 : Nat)
      - (topic.length : Nat) - 3) % 4294967296 = (payload.length : Int) := by
    omega
  rw [hcl]
  rw [show ((payload.length : Int)).toNat = payload.length from by omega]
  rw [List.take_length]
  rcases hq with rfl | rfl <;> simp

/-! ### Claims -/

/-- **C1** (claim fails on the code; the encoder is the bug): encoding 128
stores only the final base-128 digit `0x01` — the continuation byte
`0x80` is computed but never written — so the round trip
`decode(encode(128))` yields `(1, 1)`, not `(128, len(encode(128)))` with
value 128.  Values 0 and 127 (single-digit encodings) do round-trip. -/
theorem remaining_length_roundtrip_bug :
    encode_length 128 = ([0x01], 1) ∧
    decode_length (TYPE_PUBLISH :: (encode_length 128).1) = (1, 1) ∧
    decode_length (TYPE_PUBLISH :: (encode_length 0).1) = (0, 1) ∧
    decode_length (TYPE_PUBLISH :: (encode_length 127).1) = (127, 1) := by
  refine ⟨?_, ?_, ?_, ?_⟩ <;>
    simp [encode_length, encode_go, decode_length, decode_go, TYPE_PUBLISH]

/-- **C2** (claim fails on the code; the builder is the bug): the
UNSUBSCRIBE builder writes fixed-header byte `TYPE_SUBSCRIBE = 0x82`
instead of `TYPE_UNSUBSCRIBE = 0xa2`; the rest of the frame (varint
remaining length, 2-byte identifier, length-prefixed topic) is as the claim
says, shown here for topic "a" with the counter at 0. -/
theorem mqtt_unsubscribe_type_byte :
    (mqtt_unsubscribe [97] 0).1.data = [0x82, 0x05, 0x00, 0x00, 0x00, 0x01, 97] ∧
    (mqtt_unsubscribe [97] 0).1.data.getD 0 0 = TYPE_SUBSCRIBE ∧
    TYPE_SUBSCRIBE = 0x82 ∧ TYPE_UNSUBSCRIBE = 0xa2 := by
  have h5 : encode_length 5 = ([5], 1) := encode_length_small 5 (by omega)
  refine ⟨?_, ?_, rfl, rfl⟩ <;> simp [mqtt_unsubscribe, h5, u16be, TYPE_SUBSCRIBE]

/-- **C3** (claim fails on the code; the length calculator is the bug):
with `client_id` NULL the builder writes 14 bytes (12 of them payload,
including the 2-byte zero client-id length prefix) but
`calculate_connect_payload_len` returns 10, so the recorded frame size is
12 and the last two written bytes are not covered.  With a 1-byte client id
the computed and written counts agree (15 = 15). -/
theorem connect_payload_len_mismatch :
    calculate_connect_payload_len connect_no_client_id = 10 ∧
    (mqtt_connect connect_no_client_id).data.length = 14 ∧
    (mqtt_connect connect_no_client_id).size = 12 ∧
    calculate_connect_payload_len connect_with_client_id = 13 ∧
    (mqtt_connect connect_with_client_id).data.length = 15 ∧
    (mqtt_connect connect_with_client_id).size = 15 := by
  have h10 : encode_length 10 = ([10], 1) := encode_length_small 10 (by omega)
  have h13 : encode_length 13 = ([13], 1) := encode_length_small 13 (by omega)
  refine ⟨?_, ?_, ?_, ?_, ?_, ?_⟩ <;>
    simp [mqtt_connect, calculate_connect_payload_len, connect_no_client_id,
      connect_with_client_id, h10, h13, u16be, protocol_name]

/-- **C4** counterexample: on the WiFi path the masked comparison is run for
every table entry, so byte `0x21` (CONNACK type with a nonzero low nibble)
dispatches to the CONNACK handler although the claim's rule (exact match for
everything but PUBLISH) matches nothing; and the cellular path performs no
masked comparison at all, so the flagged PUBLISH byte `0x32` dispatches on
WiFi but not on cellular — the rule is not transport-independent. -/
theorem dispatch_rule_counterexample :
    dispatch_wifi 0x21 = some handler.connack ∧
    dispatch_spec_rule 0x21 = none ∧
    dispatch_wifi 0x32 = some handler.publish ∧
    dispatch_m26 0x32 = none := by decide

/-- **C4** amended: on the WiFi path an entry matches if its type equals the
masked byte OR the exact byte (first match wins); on the cellular path only
exact equality is used; consequently every byte with PUBLISH high nibble
dispatches to the PUBLISH handler on WiFi, while on cellular it does not
when its low nibble is nonzero. -/
theorem dispatch_rule_amended :
    (∀ b, dispatch_wifi b
       = funcs.findSome? (fun p =>
           if p.1 = b / 16 % 16 * 16 ∨ p.1 = b then some p.2 else none)) ∧
    (∀ b, dispatch_m26 b
       = funcs.findSome? (fun p => if p.1 = b then some p.2 else none)) ∧
    (∀ b, b / 16 = 3 → dispatch_wifi b = some handler.publish ∧
       (b % 16 ≠ 0 → dispatch_m26 b = none)) := by
  refine ⟨fun b => dispatch_wifi_go_eq funcs b,
          fun b => dispatch_m26_go_eq funcs b, ?_⟩
  intro b hb
  have h1 : 48 ≤ b := by omega
  have h2 : b < 64 := by omega
  interval_cases b <;> simp_all <;> decide

theorem dispatch_rule_amended_witness :
    dispatch_wifi 0x35 = some handler.publish ∧ dispatch_m26 0x35 = none :=
  ⟨(dispatch_rule_amended.2.2 0x35 (by omega)).1,
   (dispatch_rule_amended.2.2 0x35 (by omega)).2 (by omega)⟩

/-- **C5** counterexample: a 2-byte PINGRESP frame is not ignored — the
`pingresp` driver callback fires, because `process_pingresp` performs no
length check. -/
theorem pingresp_short_frame_counterexample :
    process_pingresp [TYPE_PINGRESP, 0x00] 2 = [event.cb_pingresp] ∧
    process_pingresp [TYPE_PINGRESP, 0x00] 2 ≠ [] := by
  constructor <;> simp [process_pingresp]

/-- **C5** amended: every handler except PINGRESP's ignores frames shorter
than 4 bytes (no callback, no acknowledgment frame); the PINGRESP handler
invokes the `pingresp` callback regardless of the frame length (and emits
nothing). -/
theorem short_frames_ignored_except_pingresp :
    ∀ data len, len < 4 →
      process_connack data len = [] ∧ process_publish data len = [] ∧
      process_puback data len = [] ∧ process_pubrec data len = [] ∧
      process_pubrel data len = [] ∧ process_pubcomp data len = [] ∧
      process_suback data len = [] ∧ process_unsuback data len = [] ∧
      process_pingresp data len = [event.cb_pingresp] := by
  intro data len h
  have h4 : ¬ len ≥ 4 := by omega
  simp [process_connack, process_publish, process_puback, process_pubrec,
    process_pubrel, process_pubcomp, process_suback, process_unsuback,
    process_pingresp, h4]

theorem short_frames_ignored_witness :
    process_connack [TYPE_CONNACK, 0x02] 2 = [] ∧
    process_publish [TYPE_CONNACK, 0x02] 2 = [] ∧
    process_puback [TYPE_CONNACK, 0x02] 2 = [] ∧
    process_pubrec [TYPE_CONNACK, 0x02] 2 = [] ∧
    process_pubrel [TYPE_CONNACK, 0x02] 2 = [] ∧
    process_pubcomp [TYPE_CONNACK, 0x02] 2 = [] ∧
    process_suback [TYPE_CONNACK, 0x02] 2 = [] ∧
    process_unsuback [TYPE_CONNACK, 0x02] 2 = [] ∧
    process_pingresp [TYPE_CONNACK, 0x02] 2 = [event.cb_pingresp] :=
  short_frames_ignored_except_pingresp [TYPE_CONNACK, 0x02] 2 (by omega)

/-- **C6** counterexample: `encode_length 2097152` does not fail or report
overflow — it returns the ordinary byte count 1 (with buffer `[0x01]`),
because the encoder has no error path at all. -/
theorem encode_overflow_counterexample :
    encode_length 2097152 = ([0x01], 1) := by
  simp [encode_length, encode_go]

/-- **C6** amended: the encoder never reports an error for any value (its
returned byte count is always the normal 1); the overflow sentinel
`0xffffffff` for lengths that would need a byte beyond the 4th lives in the
decoder, which aborts with it whenever a 4th length byte is read — i.e. on
every encoding of a value above 2,097,151. -/
theorem remaining_length_overflow_amended :
    (∀ v, (encode_length v).2 = 1) ∧
    (∀ b0 b1 b2 b3 b4 rest,
       b1 / 128 % 2 ≠ 0 → b2 / 128 % 2 ≠ 0 → b3 / 128 % 2 ≠ 0 →
       decode_length (b0 :: b1 :: b2 :: b3 :: b4 :: rest) = (4294967295, 4)) := by
  refine ⟨encode_len_one, ?_⟩
  intro b0 b1 b2 b3 b4 rest h1 h2 h3
  simp [decode_length, decode_go, h1, h2, h3]

theorem remaining_length_overflow_witness :
    decode_length [0x00, 0x80, 0x80, 0x80, 0x01] = (4294967295, 4) :=
  remaining_length_overflow_amended.2 0x00 0x80 0x80 0x80 0x01 []
    (by omega) (by omega) (by omega)

/-- **C7**: processing a well-formed inbound PUBLISH frame with qos = 1
carrying identifier `id` produces exactly the event sequence
[`publish` callback with the decoded topic and payload,
 enqueue of one PUBACK frame carrying `id`] — one callback, one PUBACK,
callback strictly before the PUBACK is enqueued. -/
theorem inbound_publish_qos1 (dup retain : Nat) (topic payload : List Nat)
    (id : Nat) (hd : dup ≤ 1) (hr : retain ≤ 1) (ht : topic.length ≤ 41)
    (h0 : 0 ∉ topic) (hid : id < 65536)
    (hlen : topic.length + payload.length + 4 < 128) :
    process_publish
      (([0x30 + dup * 8 + 1 * 2 + retain, topic.length + payload.length + 4,
         0, topic.length] ++ topic) ++ (id / 256 :: id % 256 :: payload))
      (topic.length + payload.length + 6)
    = [event.cb_publish topic payload, event.send (mqtt_puback_msg id)] := by
  have h := process_publish_wellformed dup 1 retain topic payload id
    (Or.inl rfl) hd hr ht h0 hid hlen
  simpa using h

theorem inbound_publish_qos1_witness :
    process_publish [0x32, 0x07, 0x00, 0x01, 116, 0x00, 0x07, 104, 105] 9
      = [event.cb_publish [116] [104, 105], event.send (mqtt_puback_msg 7)] := by
  have h := inbound_publish_qos1 0 0 [116] [104, 105] 7 (by omega) (by omega)
    (by simp) (by simp) (by omega) (by simp)
  simpa using h

/-- **C8**: processing a well-formed inbound PUBLISH frame with qos = 2 and
identifier `id` emits exactly one PUBREC frame carrying `id` (after the
`publish` callback); processing a well-formed inbound PUBREL frame with
identifier `id2` produces exactly the event sequence [enqueue of one
PUBCOMP frame carrying `id2`, `pubrel` callback with `id2`] — the PUBCOMP
is enqueued strictly before the callback fires. -/
theorem inbound_qos2_handshake (dup retain : Nat) (topic payload : List Nat)
    (id id2 : Nat) (hd : dup ≤ 1) (hr : retain ≤ 1) (ht : topic.length ≤ 41)
    (h0 : 0 ∉ topic) (hid : id < 65536)
    (hlen : topic.length + payload.length + 4 < 128) (hid2 : id2 < 65536) :
    process_publish
      (([0x30 + dup * 8 + 2 * 2 + retain, topic.length + payload.length + 4,
         0, topic.length] ++ topic) ++ (id / 256 :: id % 256 :: payload))
      (topic.length + payload.length + 6)
      = [event.cb_publish topic payload, event.send (mqtt_pubrec_msg id)] ∧
    process_pubrel [TYPE_PUBREL, 0x02, id2 / 256, id2 % 256] 4
      = [event.send (mqtt_pubcomp_msg id2), event.cb_pubrel id2] := by
  constructor
  · have h := process_publish_wellformed dup 2 retain topic payload id
      (Or.inr rfl) hd hr ht h0 hid hlen
    simpa using h
  · have h : (id2 / 256 * 256 + id2 % 256) % 65536 = id2 := by omega
    simp [process_pubrel, h]

theorem inbound_qos2_handshake_witness :
    process_publish [0x34, 0x06, 0x00, 0x01, 116, 0x00, 0x09, 104] 8
        = [event.cb_publish [116] [104], event.send (mqtt_pubrec_msg 9)] ∧
      process_pubrel [TYPE_PUBREL, 0x02, 0x00, 0x09] 4
        = [event.send (mqtt_pubcomp_msg 9), event.cb_pubrel 9] := by
  have h := inbound_qos2_handshake 0 0 [116] [104] 9 9 (by omega) (by omega)
    (by simp) (by simp) (by omega) (by simp) (by omega)
  simpa using h

/-- **C9**: the packet-identifier generator is a single 16-bit counter
initialized to 0 and shared by the qos>0 publish, subscribe and unsubscribe
builders; each such builder encodes the current counter value into its
frame and returns the counter incremented modulo 65536, so the `k`-th of a
sequence of identifier-consuming operations started at the initial counter
encodes identifier `(g_uuid_init + k) % 65536` — strictly increasing mod
65536, wrapping 65535 → 0. -/
theorem packet_id_monotonic :
    (∀ op u, qos_bearing op → u < 65536 →
       frame_id op (run_op op u).1 = u ∧ (run_op op u).2 = (u + 1) % 65536) ∧
    (∀ ops k, (∀ op ∈ ops, qos_bearing op) → k < ops.length →
       (run_ops ops g_uuid_init).1.getD k 0 = (g_uuid_init + k) % 65536) := by
  refine ⟨run_op_id, ?_⟩
  intro ops k h hk
  exact run_ops_ids ops g_uuid_init h (by norm_num [g_uuid_init]) k hk

theorem packet_id_monotonic_witness :
    (run_ops [mqtt_op.subscribe [97] 1, mqtt_op.publish [98] [99] 0 1 0,
              mqtt_op.unsubscribe [97]] g_uuid_init).1.getD 2 0
      = (g_uuid_init + 2) % 65536 :=
  packet_id_monotonic.2
    [mqtt_op.subscribe [97] 1, mqtt_op.publish [98] [99] 0 1 0,
     mqtt_op.unsubscribe [97]] 2 (by simp [qos_bearing]) (by simp)

/-- **C10** counterexample: with the counter at 255 the SUBSCRIBE frame
encodes identifier 255, but `mqtt_subscribe` returns 0, not
(255 + 1) % 65536 = 256: the function's `uint8_t` return type truncates
the incremented 16-bit counter to its low byte. -/
theorem subscribe_return_truncated_counterexample :
    frame_id (mqtt_op.subscribe [97] 0) (mqtt_subscribe [97] 0 255).1 = 255 ∧
    (mqtt_subscribe [97] 0 255).2.1 = 0 ∧
    (mqtt_subscribe [97] 0 255).2.1
      ≠ (frame_id (mqtt_op.subscribe [97] 0)
           (mqtt_subscribe [97] 0 255).1 + 1) % 65536 := by
  have h6 : encode_length 6 = ([6], 1) := encode_length_small 6 (by omega)
  refine ⟨?_, ?_, ?_⟩ <;>
    simp [mqtt_subscribe, h6, u16be, frame_id, id_offset, TYPE_SUBSCRIBE]

/-- **C10** amended: `mqtt_subscribe` returns the identifier generator's
value after the post-use increment, narrowed to 8 bits by the function's
`uint8_t` return type: the returned value is the identifier encoded in the
SUBSCRIBE frame plus one modulo 256, and never the identifier actually
used in the frame. -/
theorem subscribe_return_value (topic : List Nat) (qos u : Nat)
    (hu : u < 65536) :
    (mqtt_subscribe topic qos u).2.1
      = (frame_id (mqtt_op.subscribe topic qos)
           (mqtt_subscribe topic qos u).1 + 1) % 256 ∧
    (mqtt_subscribe topic qos u).2.1
      ≠ frame_id (mqtt_op.subscribe topic qos) (mqtt_subscribe topic qos u).1 := by
  obtain ⟨h1, h2⟩ := run_op_id (mqtt_op.subscribe topic qos) u trivial hu
  simp only [run_op] at h1
  rw [h1]
  constructor
  · simp only [mqtt_subscribe]
    omega
  · simp only [mqtt_subscribe]
    omega

theorem subscribe_return_value_witness :
    (mqtt_subscribe [97] 0 255).2.1
      = (frame_id (mqtt_op.subscribe [97] 0)
           (mqtt_subscribe [97] 0 255).1 + 1) % 256 ∧
    (mqtt_subscribe [97] 0 255).2.1
      ≠ frame_id (mqtt_op.subscribe [97] 0) (mqtt_subscribe [97] 0 255).1 :=
  subscribe_return_value [97] 0 255 (by omega)
